import Mathlib

/-!
Verification development for pydantic-sql-bridge.

Shallow embedding of the repository's core logic:
* `RW` — the sync writer (`src/pydantic_sql_bridge/read_write.py`:
  `write`, `write_dict_models`) and the query builder (`build_query`).
* `SF` — the DDL/view parser (`src/pydantic_sql_bridge/sql_first.py`:
  `transform_column_def`, `get_optional_tables_and_aliases`,
  `parse_select_col`, `parse_create_view`, `strip_annotations`).
* `PF` — the schema generator (`src/pydantic_sql_bridge/pydantic_first.py`:
  `translate_type`, `get_fk_types`, `generate_sql`).

Python dicts are modelled as association lists, Python sets as `Finset`
(where set algebra matters) or as `List` (where only membership is ever
observed).  Database rows are association lists from column name to a
value of an abstract type `α` with decidable equality; SQL execution is
modelled by explicit state passing on `List (Row α)`.
-/

namespace Str

/-- String prefix test, by characters. -/
def isPre (p s : String) : Bool :=
  p.toList.isPrefixOf s.toList

/-- String suffix test, by characters. -/
def endsW (s p : String) : Bool :=
  p.toList.isSuffixOf s.toList

/-- Split a character list at every newline. -/
def splitNl : List Char → List (List Char)
| [] => [[]]
| c :: rest =>
  let r := splitNl rest
  if c = '\n' then [] :: r
  else
    match r with
    | [] => [[c]]
    | l :: ls => (c :: l) :: ls

/-- The lines of a string (`str.split("\n")`). -/
def linesOf (s : String) : List String :=
  (splitNl s.toList).map String.mk

end Str

namespace RW

/-- A database row / flattened model dict: column name to value. -/
abbrev Row (α : Type) := List (String × α)

/-- Python `d[k]`-style lookup, `none` when the key is absent
(where Python would raise `KeyError`). -/
def dget {α : Type} (r : Row α) (f : String) : Option α :=
  (r.find? (fun p => p.1 = f)).map (·.2)

/-- Total lookup used where the source indexes unconditionally after the
presence of the key is already guaranteed by the caller. -/
def dgetD {α : Type} [Inhabited α] (r : Row α) (f : String) : α :=
  (dget r f).getD default

/-- `get_id = lambda model: tuple(model[field] for field in compare_on)`
(read_write.py line 149).  Key tuples live in `List (Option α)` so that a
missing column is representable. -/
def get_id {α : Type} (compare_on : List String) (m : Row α) : List (Option α) :=
  compare_on.map (dget m)

/-- `in_db = set(c.execute(f'select {sql_columns} from {table_name}').fetchall())`
(line 152): the comparison-key tuples currently in the table. -/
def in_db_keys {α : Type} [DecidableEq α] (db : List (Row α)) (compare_on : List String) :
    Finset (List (Option α)) :=
  (db.map (get_id compare_on)).toFinset

/-- `in_memory = {get_id(model) for model in models}` (line 153). -/
def in_memory_keys {α : Type} [DecidableEq α] (models : List (Row α))
    (compare_on : List String) : Finset (List (Option α)) :=
  (models.map (get_id compare_on)).toFinset

/-- `to_insert := in_memory - in_db` (line 156). -/
def to_insert {α : Type} [DecidableEq α]
    (in_memory in_db : Finset (List (Option α))) : Finset (List (Option α)) :=
  in_memory \ in_db

/-- `to_update := in_memory & in_db` (line 168). -/
def to_update {α : Type} [DecidableEq α]
    (in_memory in_db : Finset (List (Option α))) : Finset (List (Option α)) :=
  in_memory ∩ in_db

/-- `to_delete := in_db - in_memory` (line 179). -/
def to_delete {α : Type} [DecidableEq α]
    (in_memory in_db : Finset (List (Option α))) : Finset (List (Option α)) :=
  in_db \ in_memory

/-- `fields = tuple(models[0].keys())` (line 155); empty on an empty list
(the source would raise an IndexError there, but `write` guarantees a
non-empty list before calling `write_dict_models`). -/
def fieldsOf {α : Type} (models : List (Row α)) : List String :=
  (models.headD []).map (·.1)

/-- The row written by `INSERT INTO t(fields) VALUES (?...)` /
`UPDATE t SET field=? ...` for a given model: the model's values on the
`fields` columns, in column order. -/
def row_of_model {α : Type} [Inhabited α] (fields : List String) (m : Row α) : Row α :=
  fields.map (fun f => (f, dgetD m f))

/-- Effect of the batch INSERT (lines 156-166): one row appended per model
whose key is in `to_insert`, in model order. -/
def insert_step {α : Type} [DecidableEq α] [Inhabited α] (db models : List (Row α))
    (compare_on fields : List String) (toIns : Finset (List (Option α))) : List (Row α) :=
  db ++ (models.filter (fun m => get_id compare_on m ∈ toIns)).map (row_of_model fields)

/-- Effect of the batch `UPDATE ... SET <all fields> WHERE <key>` (lines
168-177): for each matching model, every row whose key equals the model's
key is overwritten with the model's values on the `fields` columns. -/
def update_step {α : Type} [DecidableEq α] [Inhabited α] (db models : List (Row α))
    (compare_on fields : List String) (toUpd : Finset (List (Option α))) : List (Row α) :=
  (models.filter (fun m => get_id compare_on m ∈ toUpd)).foldl
    (fun d m => d.map (fun r =>
      if get_id compare_on r = get_id compare_on m then row_of_model fields m else r))
    db

/-- `delete_data = [tuple(model[field] for field in compare_on)
for model in models if get_id(model) in to_delete]` (lines 183-186):
note that it ranges over the in-memory `models`, not over `to_delete`. -/
def delete_data {α : Type} [DecidableEq α] (models : List (Row α))
    (compare_on : List String) (toDel : Finset (List (Option α))) : List (List (Option α)) :=
  (models.filter (fun m => get_id compare_on m ∈ toDel)).map (get_id compare_on)

/-- Effect of the batch `DELETE FROM t WHERE <key>=?` over `delete_data`
(lines 179-187): every row whose key tuple appears in the batch is removed. -/
def delete_step {α : Type} [DecidableEq α] (db : List (Row α)) (compare_on : List String)
    (dd : List (List (Option α))) : List (Row α) :=
  db.filter (fun r => ¬ get_id compare_on r ∈ dd)

/-- `write_dict_models` (read_write.py lines 144-187) as a state transformer
on the table contents.  The three key sets are computed once up front from
the initial table state; the three batches then run in source order
(insert, update, delete), each guarded by set non-emptiness and its flag. -/
def write_dict_models {α : Type} [DecidableEq α] [Inhabited α] (db models : List (Row α))
    (compare_on : List String)
    (should_insert should_update should_delete : Bool) : List (Row α) :=
  let inDb := in_db_keys db compare_on
  let inMem := in_memory_keys models compare_on
  let fields := fieldsOf models
  let db1 := if to_insert inMem inDb ≠ ∅ ∧ should_insert then
      insert_step db models compare_on fields (to_insert inMem inDb) else db
  let db2 := if to_update inMem inDb ≠ ∅ ∧ should_update then
      update_step db1 models compare_on fields (to_update inMem inDb) else db1
  let db3 := if to_delete inMem inDb ≠ ∅ ∧ should_delete then
      delete_step db2 compare_on (delete_data models compare_on (to_delete inMem inDb)) else db2
  db3

/-- The model type metadata `write` inspects: class identity, the optional
`__id__` attribute, and the declared field names (`__fields__`). -/
structure ModelType where
  name : String
  id : Option (List String)
  fields : List String
deriving DecidableEq, Repr

/-- `write` (read_write.py lines 115-141) as a state transformer returning
the new table state plus `some errorMessage` when the source raises.  All
checks happen before `write_dict_models` runs, so every error path returns
the table unchanged.  The models carry their already-flattened dict
(`flatten_model` is applied upstream of `write_dict_models` in the source;
nested-model flattening is not needed by any claim about `write`). -/
def write {α : Type} [DecidableEq α] [Inhabited α] (db : List (Row α))
    (models : List (ModelType × Row α)) (compare_on : Option (List String))
    (should_insert should_update should_delete : Bool) : List (Row α) × Option String :=
  if models.length = 0 then
    (db, some "Cannot write empty list. If you want to delete, use delete_all.")
  else if 1 < ((models.map (·.1)).toFinset.card) then
    (db, some "Expected only one type of model in models.")
  else
    match models with
    | [] => (db, some "Cannot write empty list. If you want to delete, use delete_all.")
    | m0 :: _ =>
      let model_type := m0.1
      let resolved : Option (List String) :=
        match compare_on with
        | some co => some co
        | none => model_type.id
      match resolved with
      | none =>
        (db, some "Cannot skip passing compare_on when model has no attribute __id__")
      | some co =>
        if (co.filter (fun n => n ∉ model_type.fields)) ≠ [] then
          (db, some "Fields in compare_on are not present in model")
        else
          (write_dict_models db (models.map (·.2)) co
            should_insert should_update should_delete, none)

/- A pydantic model class as seen by `build_query` (read_write.py lines
36-51): its table name, its `__id__` attribute, and its fields in
declaration order, each either a plain field or a nested model reference. -/
mutual

inductive QModel where
| mk : String → List String → QFields → QModel

inductive QFields where
| nil : QFields
| consPrim : String → QFields → QFields
| consRef : String → QModel → QFields → QFields

end

def QModel.name : QModel → String
| .mk n _ _ => n

def QModel.id : QModel → List String
| .mk _ i _ => i

def QModel.fields : QModel → QFields
| .mk _ _ f => f

/-- A join of the built query: joined table, join kind, and the list of
textual ON conditions accumulated by repeated `join_expr.on(...)` calls. -/
structure JoinE where
  table : String
  kind : String
  conds : List String
deriving DecidableEq

/-- The built select: FROM table, selected columns, joins in order. -/
structure SelectE where
  fromTable : String
  selects : List String
  joins : List JoinE
deriving DecidableEq

/- `build_query` (read_write.py lines 36-51): non-model fields select
`{table}.{name}`; a nested model field recursively builds the sub-query,
unions its selects, adds an INNER join on
`{table}.{subTable}_{col} = {subTable}.{col}` for each `col` of the nested
model's `__id__`, then appends the sub-query's own joins. -/
mutual

def build_query : QModel → SelectE
| .mk n _ fs => { fromTable := n, selects := (bqFields n fs).1, joins := (bqFields n fs).2 }

def bqFields (tn : String) : QFields → List String × List JoinE
| .nil => ([], [])
| .consPrim fname rest =>
    let r := bqFields tn rest
    (s!"{tn}.{fname}" :: r.1, r.2)
| .consRef _fname sub rest =>
    let sq := build_query sub
    let st := sq.fromTable
    let je : JoinE :=
      { table := st, kind := "inner",
        conds := sub.id.map (fun col => s!"{tn}.{st}_{col} = {st}.{col}") }
    let r := bqFields tn rest
    (sq.selects ++ r.1, (je :: sq.joins) ++ r.2)

end

end RW

namespace SF

/-- Sequencing of a Python comprehension whose body may raise: the first
exception aborts the whole list. -/
def mapE {β γ : Type} (f : β → Except String γ) : List β → Except String (List γ)
| [] => .ok []
| x :: xs =>
  match f x with
  | .error e => .error e
  | .ok y =>
    match mapE f xs with
    | .error e => .error e
    | .ok ys => .ok (y :: ys)

/- The sqlglot select-column expressions `parse_select_col` supports
(sql_first.py lines 148-168): `exp.Column`, `exp.Alias`, `exp.Coalesce`,
`exp.Null`, `exp.Literal`.  `SelectList` is the argument list of a
COALESCE. -/
mutual

inductive SelectExpr where
| column : String → String → SelectExpr
| aliasE : SelectExpr → String → SelectExpr
| coalesce : SelectExpr → SelectList → SelectExpr
| nullE : SelectExpr
| literal : String → SelectExpr

inductive SelectList where
| nil : SelectList
| cons : SelectExpr → SelectList → SelectList

end

/-- sqlglot's `Expression.alias_or_name` on the supported node kinds:
an alias's output name, a column's name, a literal's text, "" otherwise. -/
def alias_or_name : SelectExpr → String
| .column _ n => n
| .aliasE _ n => n
| .coalesce _ _ => ""
| .nullE => ""
| .literal v => v

/- All `exp.Column` nodes of an expression, as (table, name) pairs, in
sqlglot's depth-first preorder walk order. -/
mutual

def walkColumns : SelectExpr → List (String × String)
| .column t n => [(t, n)]
| .aliasE e _ => walkColumns e
| .coalesce p fs => walkColumns p ++ walkColumnsList fs
| .nullE => []
| .literal _ => []

def walkColumnsList : SelectList → List (String × String)
| .nil => []
| .cons e rest => walkColumns e ++ walkColumnsList rest

end

/-- `parse_first_table_name` (sql_first.py lines 97-110): the table of the
first `exp.Column` in the walk; `none` where the source raises
`ValueError` because no column exists. -/
def parse_first_table_name (e : SelectExpr) : Option String :=
  (walkColumns e).head?.map (·.1)

/- `parse_select_col` (sql_first.py lines 148-168): output name, type
source (table, column) and the `not_nullable` flag.  For a COALESCE the
name and source come from the first argument while `not_nullable` is
`any(not_nullable for ... in fallbacks)`. -/
mutual

def parse_select_col : SelectExpr → String × (String × String) × Bool
| .aliasE e n =>
    let r := parse_select_col e
    (n, r.2.1, r.2.2)
| .coalesce p fs =>
    let r := parse_select_col p
    (r.1, r.2.1, anyNotNullable fs)
| .column t n => (n, (t, n), false)
| .nullE => ("", ("", ""), false)
| .literal _ => ("", ("", ""), true)

def anyNotNullable : SelectList → Bool
| .nil => false
| .cons e rest => (parse_select_col e).2.2 || anyNotNullable rest

end

/-- Whether the expression is (possibly under output aliases) a COALESCE
call.  Used to state the escape clause of the join-nullability rule. -/
def isCoalesceUnderAlias : SelectExpr → Bool
| .aliasE e _ => isCoalesceUnderAlias e
| .coalesce _ _ => true
| _ => false

/-- The greedy split behind the regex `typing.Annotated\[(.*), .*]`: the
text before the last `", "` that is still followed by a `]`, together
with what follows that `", "`; `none` when the regex does not match. -/
def splitLastCommaSpace : List Char → Option (List Char × List Char)
| [] => none
| c :: rest =>
  match splitLastCommaSpace rest with
  | some (g, t) => some (c :: g, t)
  | none =>
    match rest with
    | ' ' :: rest2 => if c = ',' ∧ rest2.contains ']' then some ([], rest2) else none
    | _ => none

/-- `strip_annotations` (sql_first.py lines 113-117):
`re.match(r"typing.Annotated\[(.*), .*]", typ)` and, on a match, the first
group.  (The regex's unescaped dots also match arbitrary characters and
`.` does not cross newlines; neither matters for the type strings this
program produces, so the prefix is compared literally here.) -/
def strip_annotations (typ : String) : String :=
  let pre := "typing.Annotated[".toList
  let cs := typ.toList
  if pre.isPrefixOf cs then
    match splitLastCommaSpace (cs.drop pre.length) with
    | some (g, _) => String.mk g
    | none => typ
  else typ

/-- One JOIN clause of a view query: its side ("LEFT", "RIGHT", "FULL" or
"" for inner), the joined table's name and its alias ("" for none). -/
structure JoinSF where
  side : String
  name : String
  aliasName : String
deriving DecidableEq

/-- The parsed `CREATE VIEW` body: FROM table (name and alias), join
clauses in order, and the selected column expressions. -/
structure SelectSF where
  fromName : String
  fromAlias : String
  joins : List JoinSF
  expressions : List SelectExpr

/-- The fold state step of `get_optional_tables_and_aliases` (sql_first.py
lines 120-145).  Python's sets are modelled as lists (only membership is
observed).  The `seen` set is seeded with the `exp.From` *object*, which
never compares equal to any table-name string: that element is modelled
as `none`, strings as `some s`. -/
def goOpt (sel : SelectSF) : List JoinSF → List (Option String) → List (Option String) →
    List (Option String)
| [], opt, _seen => opt
| j :: rest, opt, seen =>
  let opt' :=
    if j.side = "RIGHT" then opt ++ seen
    else if j.side = "LEFT" then
      (opt ++ [some j.name]) ++ (if j.aliasName ≠ "" then [some j.aliasName] else [])
    else if j.side = "FULL" then
      ([some sel.fromName] ++ (if sel.fromAlias ≠ "" then [some sel.fromAlias] else []))
        ++ sel.joins.map (fun k => some k.name)
        ++ (sel.joins.filter (fun k => k.aliasName ≠ "")).map (fun k => some k.aliasName)
    else opt
  let seen' := (seen ++ [some j.name]) ++ (if j.aliasName ≠ "" then [some j.aliasName] else [])
  goOpt sel rest opt' seen'

/-- `get_optional_tables_and_aliases` (sql_first.py lines 120-145): the
tables/aliases whose columns may be NULL because of join structure. -/
def get_optional_tables_and_aliases (sel : SelectSF) : List (Option String) :=
  goOpt sel sel.joins [] [none]

/-- A previously parsed table model: column name to pydantic type string. -/
abbrev TableModelSF := List (String × String)

/-- Python dict `.get`/`[]` over an association list. -/
def dict_get (m : List (String × String)) (k : String) : Option String :=
  (m.find? (fun p => p.1 = k)).map (·.2)

/-- `models.get(name)` over the parsed table models. -/
def models_get (models : List (String × TableModelSF)) (k : String) : Option TableModelSF :=
  (models.find? (fun p => p.1 = k)).map (·.2)

/-- `alias_or_name` of a JOIN's table. -/
def join_alias_or_name (j : JoinSF) : String :=
  if j.aliasName ≠ "" then j.aliasName else j.name

/-- `alias_or_name` of the FROM clause's table. -/
def from_alias_or_name (sel : SelectSF) : String :=
  if sel.fromAlias ≠ "" then sel.fromAlias else sel.fromName

/-- The dict `alias_to_model` of `parse_create_view` (sql_first.py lines
175-178): `{from.alias_or_name: models.get(fromTable)} | {join alias_or_name:
models.get(join table), ...}`; later joins override earlier keys.  The
outer `Option` is key absence, the inner one is `models.get` missing. -/
def alias_to_model (sel : SelectSF) (models : List (String × TableModelSF)) (k : String) :
    Option (Option TableModelSF) :=
  match sel.joins.reverse.find? (fun j => join_alias_or_name j = k) with
  | some j => some (models_get models j.name)
  | none =>
    if from_alias_or_name sel = k then some (models_get models sel.fromName) else none

/-- `tables = [parse_first_table_name(col) for col in columns]`
(sql_first.py line 181), with the ValueError of a column-free expression
as an error. -/
def table_of_col (c : SelectExpr) : Except String String :=
  match parse_first_table_name c with
  | some t => .ok t
  | none => .error "Cannot find column definition to get table from"

/-- The loop body of `parse_create_view` (sql_first.py lines 190-195) for
one `(column, table)` pair: parse the select column, look its type source
up in the resolved models, strip annotations, and wrap the type in
`typing.Optional[...]` when the column's table is optional, its model is
not already Optional, and it has no non-null COALESCE fallback. -/
def render_col (sel : SelectSF) (models : List (String × TableModelSF))
    (optional : List (Option String)) (ct : SelectExpr × String) :
    Except String (String × String) :=
  let r := parse_select_col ct.1
  match alias_to_model sel models r.2.1.1 with
  | none => .error "KeyError: alias"
  | some none => .error "TypeError: NoneType is not subscriptable"
  | some (some tm) =>
    match dict_get tm r.2.1.2 with
    | none => .error "KeyError: column"
    | some ty =>
      let col_model := strip_annotations ty
      let col_model :=
        if some ct.2 ∈ optional ∧ ¬ (Str.isPre "typing.Optional" col_model)
            ∧ r.2.2 = false then
          "typing.Optional[" ++ col_model ++ "]"
        else col_model
      .ok (alias_or_name ct.1, col_model)

/-- `parse_create_view` (sql_first.py lines 171-198): resolve each
column's first table, fail on unresolvable aliases, compute the optional
tables, then render each column through `render_col`. -/
def parse_create_view (view_name : String) (sel : SelectSF)
    (models : List (String × TableModelSF)) :
    Except String (String × List (String × String)) :=
  match mapE table_of_col sel.expressions with
  | .error e => .error e
  | .ok tables =>
    if tables.any (fun t => (alias_to_model sel models t).isNone) then
      .error "Cannot translate aliases to models."
    else
      match mapE (render_col sel models (get_optional_tables_and_aliases sel))
        (sel.expressions.zip tables) with
      | .error e => .error e
      | .ok defs => .ok (view_name, defs)

/-- The sqlglot column types appearing in `SQLGLOT_TYPE_TO_PYDANTIC`
(sql_first.py lines 11-26), plus a catch-all for unmapped types. -/
inductive SqlglotType where
| bigint | bit | char | date | datetime | decimal | float | int
| nchar | nvarchar | smallint | varchar | text | uniqueidentifier
| other : String → SqlglotType
deriving DecidableEq

/-- `SQLGLOT_TYPE_TO_PYDANTIC` (sql_first.py lines 11-26); `none` models a
`KeyError` on an unmapped type. -/
def sqlglot_type_to_pydantic : SqlglotType → Option String
| .bigint => some "int"
| .bit => some "bool"
| .char => some "str"
| .date => some "datetime.date"
| .datetime => some "datetime.datetime"
| .decimal => some "float"
| .float => some "float"
| .int => some "int"
| .nchar => some "str"
| .nvarchar => some "str"
| .smallint => some "int"
| .varchar => some "str"
| .text => some "str"
| .uniqueidentifier => some "str"
| .other _ => none

/-- The column-constraint kinds `transform_column_def` distinguishes:
`NotNullColumnConstraint` (whose `allow_null` argument is `True` for an
explicit `NULL` marker and absent for `NOT NULL`),
`PrimaryKeyColumnConstraint`, and anything else. -/
inductive CConstraint where
| notNull : Bool → CConstraint
| primaryKey : CConstraint
| otherC : CConstraint
deriving DecidableEq

/-- A parsed `exp.ColumnDef`: name, sqlglot type, constraints in order. -/
structure ColumnDefSql where
  name : String
  kind : SqlglotType
  constraints : List CConstraint
deriving DecidableEq

/-- `transform_column_def` (sql_first.py lines 34-56): map the SQL type
through the catalog, mark `optional` only when a `NotNullColumnConstraint`
carries `allow_null=True` (an explicit `NULL`), mark `primary_key` from an
inline constraint or membership in the table-level key, then apply the
transformers in dict order (`optional` first, then `primary_key`). -/
def transform_column_def (cd : ColumnDefSql) (primary_key : Option (Finset String)) :
    Except String (String × String) :=
  let pk := primary_key.getD ∅
  match sqlglot_type_to_pydantic cd.kind with
  | none => .error "KeyError: unmapped sqlglot type"
  | some pt0 =>
    let opt := cd.constraints.any (fun c =>
      match c with
      | .notNull b => b
      | _ => false)
    let isPk := (cd.constraints.any (fun c =>
      match c with
      | .primaryKey => true
      | _ => false)) || decide (cd.name ∈ pk)
    let pt1 := if opt then "typing.Optional[" ++ pt0 ++ "]" else pt0
    let pt2 := if isPk then "typing.Annotated[" ++ pt1 ++ ", Annotations.PRIMARY_KEY]" else pt1
    .ok (cd.name, pt2)

end SF

namespace PF

/-- The host (python) types a pydantic field can carry, as compared by
`translate_type` (pydantic_first.py lines 14-21). -/
inductive PyType where
| int | str | float | bool | date | datetime
| custom : String → PyType
deriving DecidableEq

/-- The display name of a host type, used in error messages. -/
def PyType.typeName : PyType → String
| .int => "int"
| .str => "str"
| .float => "float"
| .bool => "bool"
| .date => "datetime.date"
| .datetime => "datetime.datetime"
| .custom n => n

/-- `translate_type` (pydantic_first.py lines 14-21): `int`, `str` and
`float` map to SQL column types; every other host type raises
`TypeError(f'Unknown type {typ}')`. -/
def translate_type : PyType → Except String String
| .int => .ok "integer not null"
| .str => .ok "text not null"
| .float => .ok "real not null"
| t => .error ("Unknown type " ++ t.typeName)

/- A pydantic model as seen by `generate_sql` (pydantic_first.py lines
35-64): class name, optional `__id__`, and fields in declaration order,
each a plain host type or a reference to another model. -/
mutual

inductive GModel where
| mk : String → Option (List String) → List (String × GFieldType) → GModel

inductive GFieldType where
| prim : PyType → GFieldType
| ref : GModel → GFieldType

end

def GModel.name : GModel → String
| .mk n _ _ => n

def GModel.idList : GModel → Option (List String)
| .mk _ i _ => i

def GModel.fields : GModel → List (String × GFieldType)
| .mk _ _ f => f

/-- The declared field names of a model (`__fields__` keys). -/
def GModel.fieldNames (m : GModel) : List String :=
  m.fields.map (·.1)

/-- `typ.__fields__[name]`, first declaration wins. -/
def GModel.fieldType (m : GModel) (k : String) : Option GFieldType :=
  (m.fields.find? (fun p => p.1 = k)).map (·.2)

/-- `get_table_name` (pydantic_first.py lines 10-11): note the source
takes `typ.__name__[-3]` — the single character three from the end — for
names ending in `Row`, not a prefix. -/
def get_table_name_pf (name : String) : String :=
  if Str.endsW name "Row" then String.mk [name.toList.getD (name.length - 3) ' ']
  else name

/-- `get_fk_types` (pydantic_first.py lines 24-32): require `__id__`,
require its names to exist and to not be model references, then translate
each key field's type. -/
def get_fk_types (m : GModel) : Except String (List String) :=
  match m.idList with
  | none => .error ("Model " ++ m.name ++
      " needs an __id__ attribute in order to be used as a foreign key.")
  | some id =>
    if (id.filter (fun n => (m.fieldType n).isNone)) ≠ [] then
      .error "Key names specified in __id__ are not present on the model."
    else if (id.filter (fun n =>
        match m.fieldType n with
        | some (.ref _) => true
        | _ => false)) ≠ [] then
      .error "Cannot specify model references in __id__."
    else
      SF.mapE (fun n =>
        match m.fieldType n with
        | some (.prim t) => translate_type t
        | some (.ref sub) => .error ("Unknown type " ++ sub.name)
        | none => .error "KeyError: field")
        id

/-- `textwrap.indent(s, "  ")`: two spaces in front of every line. -/
def indentTwo (s : String) : String :=
  String.intercalate "\n" ((Str.linesOf s).map (fun l => "  " ++ l))

/-- The field loop of `generate_sql` (pydantic_first.py lines 46-58):
returns the column definitions and the FOREIGN KEY constraints, in field
order. -/
def genColumns : List (String × GFieldType) → Except String (List String × List String)
| [] => .ok ([], [])
| (fname, .prim t) :: rest =>
  match translate_type t with
  | .error e => .error e
  | .ok ty =>
    match genColumns rest with
    | .error e => .error e
    | .ok r => .ok ((fname ++ " " ++ ty) :: r.1, r.2)
| (_fname, .ref sub) :: rest =>
  match get_fk_types sub with
  | .error e => .error e
  | .ok fk_types =>
    let fk_table := get_table_name_pf sub.name
    let sid := (sub.idList).getD []
    let fk_names := sid.map (fun c => fk_table ++ "_" ++ c)
    let cols := (fk_names.zip fk_types).map (fun p => p.1 ++ " " ++ p.2)
    let constr := "FOREIGN KEY (" ++ String.intercalate ", " fk_names ++ ") REFERENCES "
        ++ fk_table ++ "(" ++ String.intercalate ", " sid ++ ")"
    match genColumns rest with
    | .error e => .error e
    | .ok r => .ok (cols ++ r.1, constr :: r.2)

/-- One `CREATE TABLE` statement of `generate_sql` (pydantic_first.py
lines 37-63): PRIMARY KEY constraint first when `__id__` exists, then the
field loop; the emitted statement is the column definitions followed by
the constraints, comma-separated, indented two spaces. -/
def genTable (m : GModel) : Except String String :=
  let table_name := get_table_name_pf m.name
  match (match m.idList with
    | some id =>
      if (id.filter (fun n => n ∉ m.fieldNames)) ≠ [] then
        (.error "Fields from __id__ not found on model" : Except String (List String))
      else .ok ["PRIMARY KEY (" ++ String.intercalate ", " id ++ ")"]
    | none => .ok []) with
  | .error e => .error e
  | .ok pk_constraints =>
    match genColumns m.fields with
    | .error e => .error e
    | .ok r =>
      let all := r.1 ++ (pk_constraints ++ r.2)
      .ok ("CREATE TABLE " ++ table_name ++ " (\n"
        ++ indentTwo (String.intercalate ",\n" all) ++ "\n)")

/-- `generate_sql` (pydantic_first.py lines 35-64) up to — but not
including — the final call into the external sqlglot transpilation
collaborator: the `';\n\n'`-joined CREATE TABLE statements handed to
`transpile(..., Dialects.SQLITE, database_type.value)`.  Dialect-to-text
rewriting is an external collaborator, out of this system's scope. -/
def generate_sql_pre (models : List GModel) : Except String String :=
  match SF.mapE genTable models with
  | .error e => .error e
  | .ok stmts => .ok (String.intercalate ";\n\n" stmts)

/-- Lower-casing and whitespace normalization used to compare DDL text up
to formatting: newlines become spaces, runs of spaces collapse, spaces
adjacent to parentheses are dropped, letters are lower-cased. -/
def squish : List Char → List Char
| [] => []
| c :: rest =>
  if c = ' ' then
    match squish rest with
    | [] => []
    | d :: ds => if d = ' ' then d :: ds else ' ' :: d :: ds
  else c :: squish rest

/-- Drop a space directly after an opening or before a closing paren. -/
def parenSquish : List Char → List Char
| '(' :: ' ' :: rest => '(' :: parenSquish rest
| ' ' :: ')' :: rest => ')' :: parenSquish rest
| c :: rest => c :: parenSquish rest
| [] => []

/-- Normalize a DDL string: case, newlines, space runs, paren spacing. -/
def normSql (s : String) : String :=
  let flat := s.toList.map (fun c => if c = '\n' then ' ' else c.toLower)
  let sq := parenSquish (squish flat)
  String.mk (((sq.dropWhile (· = ' ')).reverse.dropWhile (· = ' ')).reverse)

end PF

namespace RW

/-- The nested-model fields of a field list, in declaration order. -/
def refsOf : QFields → List (String × QModel)
| .nil => []
| .consPrim _ rest => refsOf rest
| .consRef n sub rest => (n, sub) :: refsOf rest

end RW

/-! Concrete inputs used by the counterexamples and witnesses below. -/

/-- The `Transaction` model of the repository's tests (test_read_write.py):
`__id__ = ('id',)`, fields `id`, `counterparty`, `amount`. -/
def tModel : RW.QModel :=
  .mk "Transaction" ["id"]
    (.consPrim "id" (.consPrim "counterparty" (.consPrim "amount" .nil)))

/-- The `CheckingAccount` model of the repository's tests: `__id__ =
('id',)`, fields `id`, `balance`, and nested `last_transaction`. -/
def caModel : RW.QModel :=
  .mk "CheckingAccount" ["id"]
    (.consPrim "id" (.consPrim "balance" (.consRef "last_transaction" tModel .nil)))

/-- The `User` model of the spec's §8 example: `id: int` primary key,
`name: str`. -/
def userModel : PF.GModel :=
  .mk "User" (some ["id"]) [("id", .prim .int), ("name", .prim .str)]

/-- A two-row table keyed by `id` (rows 1 and 2). -/
def dbC : List (RW.Row Int) := [[("id", 1), ("v", 5)], [("id", 2), ("v", 7)]]

/-- A single in-memory model with key 1: row 2 is in the DB but absent
from memory, so its key is the lone element of `to_delete`. -/
def modelsC : List (RW.Row Int) := [[("id", 1), ("v", 9)]]

/-- `CREATE VIEW v AS SELECT COALESCE(b.y, p.x) AS y FROM P p LEFT JOIN B b`:
a COALESCE whose fallback is a column (of the non-optional base table). -/
def cSel : SF.SelectSF :=
  { fromName := "P", fromAlias := "p",
    joins := [⟨"LEFT", "B", "b"⟩],
    expressions := [SF.SelectExpr.aliasE
      (SF.SelectExpr.coalesce (SF.SelectExpr.column "b" "y")
        (SF.SelectList.cons (SF.SelectExpr.column "p" "x") SF.SelectList.nil)) "y"] }

/-- Table models for `cSel`: `P.x : int` (NOT NULL), `B.y : int` (NOT NULL). -/
def cModels : List (String × SF.TableModelSF) := [("P", [("x", "int")]), ("B", [("y", "int")])]

/-- `SELECT COALESCE(b.y, '0') AS y FROM P p LEFT JOIN B b`: a COALESCE
with a literal fallback. -/
def litSel : SF.SelectSF :=
  { fromName := "P", fromAlias := "p",
    joins := [⟨"LEFT", "B", "b"⟩],
    expressions := [SF.SelectExpr.aliasE
      (SF.SelectExpr.coalesce (SF.SelectExpr.column "b" "y")
        (SF.SelectList.cons (SF.SelectExpr.literal "0") SF.SelectList.nil)) "y"] }

/-- The `master` view of the repository's tests (test_sql_first.py):
`SELECT b.name AS company_name FROM Portfolio p LEFT JOIN Benchmark b`. -/
def wSel : SF.SelectSF :=
  { fromName := "Portfolio", fromAlias := "p",
    joins := [⟨"LEFT", "Benchmark", "b"⟩],
    expressions := [SF.SelectExpr.aliasE (SF.SelectExpr.column "b" "name") "company_name"] }

/-- Table models for `wSel`, as parsed from the tests' CREATE TABLEs. -/
def wModels : List (String × SF.TableModelSF) :=
  [("Portfolio", [("sedol", "typing.Annotated[str, Annotations.PRIMARY_KEY]"),
    ("n_invested", "int")]),
   ("Benchmark", [("name", "str"), ("n_available", "int")])]

/-- A model type with `__id__ = ('id',)` and fields `id`, `name`. -/
def mtUser : RW.ModelType := { name := "User", id := some ["id"], fields := ["id", "name"] }

/-- A second, different model type (no `__id__`). -/
def mtOther : RW.ModelType := { name := "Other", id := none, fields := ["id"] }

/-! ## Theorems -/

/-- C1: for every object collection and every prior database state, the
three key sets computed by the sync write (`toInsert = inMemory - inDb`,
`toUpdate = inMemory ∩ inDb`, `toDelete = inDb - inMemory`, over
comparison-key tuples) are pairwise disjoint and their union equals
`inDb ∪ inMemory`. -/
theorem sync_write_partition {α : Type} [DecidableEq α] (db models : List (RW.Row α))
    (compare_on : List String) :
    (Disjoint
        (RW.to_insert (RW.in_memory_keys models compare_on) (RW.in_db_keys db compare_on))
        (RW.to_update (RW.in_memory_keys models compare_on) (RW.in_db_keys db compare_on)) ∧
      Disjoint
        (RW.to_insert (RW.in_memory_keys models compare_on) (RW.in_db_keys db compare_on))
        (RW.to_delete (RW.in_memory_keys models compare_on) (RW.in_db_keys db compare_on)) ∧
      Disjoint
        (RW.to_update (RW.in_memory_keys models compare_on) (RW.in_db_keys db compare_on))
        (RW.to_delete (RW.in_memory_keys models compare_on) (RW.in_db_keys db compare_on))) ∧
    (RW.to_insert (RW.in_memory_keys models compare_on) (RW.in_db_keys db compare_on)
      ∪ RW.to_update (RW.in_memory_keys models compare_on) (RW.in_db_keys db compare_on)
      ∪ RW.to_delete (RW.in_memory_keys models compare_on) (RW.in_db_keys db compare_on))
      = RW.in_db_keys db compare_on ∪ RW.in_memory_keys models compare_on := by
  set M := RW.in_memory_keys models compare_on
  set D := RW.in_db_keys db compare_on
  refine ⟨⟨?_, ?_, ?_⟩, ?_⟩
  · rw [Finset.disjoint_left]
    intro a ha hb
    simp only [RW.to_insert, RW.to_update, Finset.mem_sdiff, Finset.mem_inter] at ha hb
    exact ha.2 hb.2
  · rw [Finset.disjoint_left]
    intro a ha hb
    simp only [RW.to_insert, RW.to_delete, Finset.mem_sdiff] at ha hb
    exact ha.2 hb.1
  · rw [Finset.disjoint_left]
    intro a ha hb
    simp only [RW.to_update, RW.to_delete, Finset.mem_sdiff, Finset.mem_inter] at ha hb
    exact hb.2 ha.1
  · ext a
    simp only [RW.to_insert, RW.to_update, RW.to_delete, Finset.mem_union, Finset.mem_sdiff,
      Finset.mem_inter]
    tauto

/-- C2 (failing input): with `compare_on = ('id',)`, a table holding rows
keyed 1 and 2, the single in-memory model keyed 1, and `should_delete`
enabled, `to_delete = {(2,)}` is non-empty, yet `delete_data` is empty —
it filters the in-memory models by membership in `to_delete`, and no
in-memory key can be in `to_delete = inDb - inMemory` — so the DELETE
batch runs with no parameters and the row keyed 2 survives the write. -/
theorem delete_flag_removes_nothing_concrete :
    RW.to_delete (RW.in_memory_keys modelsC ["id"]) (RW.in_db_keys dbC ["id"]) = {[some 2]} ∧
    RW.delete_data modelsC ["id"]
      (RW.to_delete (RW.in_memory_keys modelsC ["id"]) (RW.in_db_keys dbC ["id"])) = [] ∧
    RW.write_dict_models dbC modelsC ["id"] true true true
      = [[("id", 1), ("v", 9)], [("id", 2), ("v", 7)]] :=
  ⟨rfl, rfl, rfl⟩

/-- C6 (counterexample): the claim says forward translation succeeds for
the boolean semantic type, but `translate_type` only knows `int`, `str`
and `float`, so `bool` raises `TypeError('Unknown type ...')`. -/
theorem translate_type_bool_fails :
    PF.translate_type .bool = .error "Unknown type bool" := rfl

/-- C6 (amended): forward translation succeeds exactly for the three
semantic types integer, text and real/float, and every other host type —
including boolean, date and datetime — fails with an error naming the
offending type. -/
theorem translate_type_exactly_three :
    PF.translate_type .int = .ok "integer not null" ∧
    PF.translate_type .str = .ok "text not null" ∧
    PF.translate_type .float = .ok "real not null" ∧
    ∀ t : PF.PyType, t ≠ .int → t ≠ .str → t ≠ .float →
      PF.translate_type t = .error ("Unknown type " ++ t.typeName) := by
  refine ⟨rfl, rfl, rfl, ?_⟩
  intro t h1 h2 h3
  cases t <;> simp_all [PF.translate_type]

/-- C6 (witness): the amended theorem applied at `date`. -/
theorem translate_type_exactly_three_check :
    PF.translate_type .date = .error ("Unknown type " ++ PF.PyType.typeName .date) :=
  translate_type_exactly_three.2.2.2 .date (by simp) (by simp) (by simp)

/-- C8 (counterexample): `generate_sql` does not produce the exact text
`CREATE TABLE User (id INTEGER NOT NULL, name TEXT NOT NULL, PRIMARY KEY (id))`.
Already before the dialect renderer, the statement built from the `User`
model is multi-line with lower-case column types; the repository's own
test (test_pydantic_first.py, `test_generate_sql_sqlite`) further pins
the rendered output to `CREATE TABLE User (id INTEGER NOT NULL PRIMARY
KEY, name TEXT NOT NULL)` — the single-column PRIMARY KEY is inlined —
which differs from the claimed text as well. -/
theorem generate_sql_user_not_exact :
    PF.generate_sql_pre [userModel]
      = .ok "CREATE TABLE User (\n  id integer not null,\n  name text not null,\n  PRIMARY KEY (id)\n)" ∧
    "CREATE TABLE User (\n  id integer not null,\n  name text not null,\n  PRIMARY KEY (id)\n)"
      ≠ "CREATE TABLE User (id INTEGER NOT NULL, name TEXT NOT NULL, PRIMARY KEY (id))" ∧
    "CREATE TABLE User (id INTEGER NOT NULL PRIMARY KEY, name TEXT NOT NULL)"
      ≠ "CREATE TABLE User (id INTEGER NOT NULL, name TEXT NOT NULL, PRIMARY KEY (id))" :=
  ⟨rfl, by decide, by decide⟩

set_option maxHeartbeats 2000000 in
/-- C8 (amended): generating the schema for `User{id: int (PK), name:
str}` produces, before dialect rendering, exactly the claimed DDL up to
whitespace and letter case: column `id integer not null`, column `name
text not null`, and constraint `PRIMARY KEY (id)`, in that order. -/
theorem generate_sql_user_up_to_format :
    PF.generate_sql_pre [userModel]
      = .ok "CREATE TABLE User (\n  id integer not null,\n  name text not null,\n  PRIMARY KEY (id)\n)" ∧
    PF.normSql "CREATE TABLE User (\n  id integer not null,\n  name text not null,\n  PRIMARY KEY (id)\n)"
      = PF.normSql "CREATE TABLE User (id INTEGER NOT NULL, name TEXT NOT NULL, PRIMARY KEY (id))" :=
  ⟨rfl, by decide⟩

/-- C4 (counterexample): in `CREATE VIEW v AS SELECT COALESCE(b.y, p.x)
AS y FROM P p LEFT JOIN B b ...` the fallback `p.x` is a column that
cannot be NULL (declared `int`, i.e. NOT NULL, on the non-optional base
table P), so the claim says the output field is non-nullable; the code
counts only literal fallbacks as non-null, so the field is rendered
`typing.Optional[int]`. -/
theorem coalesce_column_fallback_still_optional :
    SF.parse_create_view "v" cSel cModels = .ok ("v", [("y", "typing.Optional[int]")]) ∧
    SF.dict_get [("x", "int")] "x" = some "int" ∧
    Str.isPre "typing.Optional" "typing.Optional[int]" = true :=
  ⟨rfl, rfl, rfl⟩

/-- C5 (counterexample): the claim says a column with no nullability
constraint at all is marked nullable; `transform_column_def` marks
`optional` only when a `NotNullColumnConstraint` with `allow_null=True`
(an explicit `NULL` marker) is present, so a bare `n_invested BIGINT`
becomes plain `int` (mirroring the repository test
`test_generate_models_straightforward`). -/
theorem bare_column_not_optional :
    SF.transform_column_def ⟨"n_invested", .bigint, []⟩ (some ∅) = .ok ("n_invested", "int") ∧
    Str.isPre "typing.Optional" "int" = false :=
  ⟨rfl, rfl⟩

/-- C10: each precondition violation — empty collection, mixed model
types, no comparison key available, or compare_on names that are not
model fields — makes `write` raise before any SQL runs, returning the
table unchanged together with the corresponding error. -/
theorem write_precondition_errors {α : Type} [DecidableEq α] [Inhabited α]
    (db : List (RW.Row α)) (models : List (RW.ModelType × RW.Row α))
    (compare_on : Option (List String)) (si su sd : Bool) :
    (models = [] →
      RW.write db models compare_on si su sd
        = (db, some "Cannot write empty list. If you want to delete, use delete_all.")) ∧
    (1 < ((models.map (·.1)).toFinset.card) →
      RW.write db models compare_on si su sd
        = (db, some "Expected only one type of model in models.")) ∧
    (∀ m0 rest, models = m0 :: rest → ¬ 1 < ((models.map (·.1)).toFinset.card) →
      compare_on = none → m0.1.id = none →
      RW.write db models compare_on si su sd
        = (db, some "Cannot skip passing compare_on when model has no attribute __id__")) ∧
    (∀ m0 rest co, models = m0 :: rest → ¬ 1 < ((models.map (·.1)).toFinset.card) →
      (compare_on = some co ∨ (compare_on = none ∧ m0.1.id = some co)) →
      (co.filter (fun n => n ∉ m0.1.fields)) ≠ [] →
      RW.write db models compare_on si su sd
        = (db, some "Fields in compare_on are not present in model")) := by
  refine ⟨?_, ?_, ?_, ?_⟩
  · intro h; subst h; rfl
  · intro h
    have hne : models ≠ [] := by
      intro he; subst he; simp at h
    match models, hne with
    | m0 :: rest, _ =>
      simp only [RW.write, List.length_cons, Nat.succ_ne_zero, if_false, if_pos h]
  · intro m0 rest hm hc hco hid
    subst hm
    simp only [RW.write, List.length_cons, Nat.succ_ne_zero, if_false, if_neg hc, hco, hid]
  · intro m0 rest co hm hc hco hf
    subst hm
    rcases hco with h | ⟨h1, h2⟩
    · simp only [RW.write, List.length_cons, Nat.succ_ne_zero, if_false, if_neg hc, h,
        if_pos hf]
    · simp only [RW.write, List.length_cons, Nat.succ_ne_zero, if_false, if_neg hc, h1, h2,
        if_pos hf]

/-- C10 (witness): the four error paths of `write` at concrete inputs,
each leaving the (empty) table untouched. -/
theorem write_precondition_errors_check :
    RW.write ([] : List (RW.Row Int)) [] none true true false
      = ([], some "Cannot write empty list. If you want to delete, use delete_all.") ∧
    RW.write ([] : List (RW.Row Int))
        [(mtUser, [("id", 1), ("name", 2)]), (mtOther, [("id", 1)])] none true true false
      = ([], some "Expected only one type of model in models.") ∧
    RW.write ([] : List (RW.Row Int)) [(mtOther, [("id", 1)])] none true true false
      = ([], some "Cannot skip passing compare_on when model has no attribute __id__") ∧
    RW.write ([] : List (RW.Row Int)) [(mtUser, [("id", 1), ("name", 2)])]
        (some ["nope"]) true true false
      = ([], some "Fields in compare_on are not present in model") :=
  ⟨(write_precondition_errors _ _ _ _ _ _).1 rfl,
   (write_precondition_errors _ _ _ _ _ _).2.1 (by decide),
   (write_precondition_errors _ _ _ _ _ _).2.2.1 _ _ rfl (by decide) rfl rfl,
   (write_precondition_errors _ _ _ _ _ _).2.2.2 _ _ _ rfl (by decide) (Or.inl rfl) (by decide)⟩

/-- `build_query` of a model names its own table as the FROM table. -/
theorem build_query_fromTable (m : RW.QModel) : (RW.build_query m).fromTable = m.name := by
  match m with
  | .mk n i fs => rw [RW.build_query]; rfl

mutual

/-- Every join emitted by `build_query` has kind `inner`. -/
theorem bq_joins_inner (m : RW.QModel) : ∀ j ∈ (RW.build_query m).joins, j.kind = "inner" := by
  match m with
  | .mk n i fs =>
    intro j hj
    rw [RW.build_query] at hj
    exact bqFields_joins_inner n fs j hj

/-- Every join emitted by the field loop of `build_query` has kind `inner`. -/
theorem bqFields_joins_inner (tn : String) (fs : RW.QFields) :
    ∀ j ∈ (RW.bqFields tn fs).2, j.kind = "inner" := by
  match fs with
  | .nil => intro j hj; simp [RW.bqFields] at hj
  | .consPrim f rest =>
    intro j hj
    rw [RW.bqFields] at hj
    exact bqFields_joins_inner tn rest j hj
  | .consRef f sub rest =>
    intro j hj
    simp only [RW.bqFields, List.mem_append, List.mem_cons] at hj
    rcases hj with (h | h) | h
    · subst h; rfl
    · exact bq_joins_inner sub j h
    · exact bqFields_joins_inner tn rest j h

end

/-- For each nested-model field of a field list, the corresponding INNER
join appears among the joins the field loop emits. -/
theorem refsOf_join_mem (tn : String) (fs : RW.QFields) :
    ∀ p ∈ RW.refsOf fs,
      (⟨p.2.name, "inner",
        p.2.id.map (fun col => s!"{tn}.{p.2.name}_{col} = {p.2.name}.{col}")⟩ : RW.JoinE)
        ∈ (RW.bqFields tn fs).2 := by
  match fs with
  | .nil => intro p hp; simp [RW.refsOf] at hp
  | .consPrim f rest =>
    intro p hp
    rw [RW.refsOf] at hp
    rw [RW.bqFields]
    exact refsOf_join_mem tn rest p hp
  | .consRef f sub rest =>
    intro p hp
    simp only [RW.refsOf, List.mem_cons] at hp
    simp only [RW.bqFields, List.mem_append, List.mem_cons]
    rcases hp with h | h
    · subst h
      left; left
      simp [build_query_fromTable]
    · right
      exact refsOf_join_mem tn rest p h

/-- C9: for every model, every nested-model field contributes an INNER
JOIN whose ON conditions equate `{table}.{NestedTable}_{pk}` with
`{NestedTable}.{pk}` for each primary-key field `pk` of the nested model,
and the query builder never emits a join kind other than `inner`. -/
theorem build_query_inner_join (m : RW.QModel) :
    (∀ j ∈ (RW.build_query m).joins, j.kind = "inner") ∧
    ∀ p ∈ RW.refsOf m.fields,
      (⟨p.2.name, "inner",
        p.2.id.map (fun col => s!"{m.name}.{p.2.name}_{col} = {p.2.name}.{col}")⟩ : RW.JoinE)
        ∈ (RW.build_query m).joins := by
  refine ⟨bq_joins_inner m, ?_⟩
  intro p hp
  match m with
  | .mk n i fs =>
    rw [RW.build_query]
    exact refsOf_join_mem n fs p hp

/-- C9 (witness): the `CheckingAccount` model with nested `Transaction`
produces the INNER join
`CheckingAccount.Transaction_id = Transaction.id`. -/
theorem build_query_inner_join_check :
    (⟨"Transaction", "inner", ["CheckingAccount.Transaction_id = Transaction.id"]⟩ : RW.JoinE)
      ∈ (RW.build_query caModel).joins :=
  (build_query_inner_join caModel).2 ("last_transaction", tModel) (by simp [caModel, RW.refsOf, RW.QModel.fields])

/-- Pointwise reading of a successful `mapE`: every input position has a
successfully mapped output at the same position. -/
theorem mapE_ok_get {β γ : Type} {f : β → Except String γ} :
    ∀ {xs : List β} {ys : List γ}, SF.mapE f xs = .ok ys →
      ∀ (i : Nat) (x : β), xs.get? i = some x → ∃ y, ys.get? i = some y ∧ f x = .ok y := by
  intro xs
  induction xs with
  | nil =>
    intro ys h i x hx
    simp at hx
  | cons a as ih =>
    intro ys h i x hx
    rw [SF.mapE] at h
    cases hfa : f a with
    | error e => rw [hfa] at h; simp at h
    | ok y0 =>
      rw [hfa] at h
      cases hm : SF.mapE f as with
      | error e => rw [hm] at h; simp at h
      | ok ys0 =>
        rw [hm] at h
        simp only [Except.ok.injEq] at h
        subst h
        cases i with
        | zero =>
          simp only [List.get?_cons_zero, Option.some.injEq] at hx
          subst hx
          exact ⟨y0, rfl, hfa⟩
        | succ n =>
          simp only [List.get?_cons_succ] at hx ⊢
          exact ih hm n x hx

/-- Zipping preserves positions. -/
theorem get_zip_of {a b : Type} :
    ∀ (l1 : List a) (l2 : List b) (i : Nat) (x : a) (y : b),
      l1.get? i = some x → l2.get? i = some y → (l1.zip l2).get? i = some (x, y) := by
  intro l1
  induction l1 with
  | nil => intro l2 i x y hx; simp at hx
  | cons c cs ih =>
    intro l2 i x y hx hy
    cases l2 with
    | nil => simp at hy
    | cons d ds =>
      cases i with
      | zero => simp_all
      | succ n =>
        simp only [List.zip_cons_cons, List.get?_cons_succ] at hx hy ⊢
        exact ih ds n x y hx hy

/-- A `not_nullable` select column that contains at least one source
column is (possibly under aliases) a COALESCE: plain columns and NULL
report nullable, and a bare literal contains no source column. -/
theorem notNullable_imp_coalesce (e : SF.SelectExpr) :
    (SF.parse_select_col e).2.2 = true → SF.walkColumns e ≠ [] →
    SF.isCoalesceUnderAlias e = true := by
  match e with
  | .column t n =>
    intro h _
    rw [SF.parse_select_col] at h
    simp at h
  | .aliasE e' n =>
    intro h hw
    rw [SF.parse_select_col] at h
    rw [SF.walkColumns] at hw
    exact notNullable_imp_coalesce e' h hw
  | .coalesce p fs => intro _ _; rfl
  | .nullE =>
    intro h _
    rw [SF.parse_select_col] at h
    simp at h
  | .literal v =>
    intro _ hw
    exact absurd (by rw [SF.walkColumns]) hw

/-- A prefix test against the same string extended on the right holds. -/
theorem isPrefixOf_self_append (l r : List Char) : l.isPrefixOf (l ++ r) = true := by
  induction l with
  | nil => simp [List.isPrefixOf]
  | cons c cs ih => simp [List.isPrefixOf, ih]

/-- `Str.isPre p (p ++ r)` holds. -/
theorem isPre_append (p r : String) : Str.isPre p (p ++ r) = true := by
  have hd : (p ++ r).toList = p.toList ++ r.toList := by
    cases p; cases r; rfl
  rw [Str.isPre, hd]
  exact isPrefixOf_self_append _ _

/-- The Optional wrapper produced by `parse_create_view` is recognized by
the source's own `typing.Optional` prefix test. -/
theorem isPre_optional_wrap (X : String) :
    Str.isPre "typing.Optional" ("typing.Optional[" ++ X ++ "]") = true := by
  have h1 : ("typing.Optional[" : String) = "typing.Optional" ++ "[" := rfl
  rw [h1, String.append_assoc, String.append_assoc]
  exact isPre_append _ _

/-- Once a table name (of some join of the query) is in the running
`optional` set, the remaining fold steps keep it there: RIGHT and LEFT
joins only add, and a FULL join resets the set to one that contains every
join's name and alias. -/
theorem goOpt_mono (sel : SF.SelectSF) (x : String)
    (hx : ∃ k ∈ sel.joins, x = k.name ∨ (k.aliasName ≠ "" ∧ x = k.aliasName)) :
    ∀ (rest : List SF.JoinSF) (opt seen : List (Option String)),
      some x ∈ opt → some x ∈ SF.goOpt sel rest opt seen := by
  intro rest
  induction rest with
  | nil =>
    intro opt seen h
    rw [SF.goOpt]
    exact h
  | cons j' rest ih =>
    intro opt seen h
    simp only [SF.goOpt]
    apply ih
    by_cases h1 : j'.side = "RIGHT"
    · rw [if_pos h1]
      exact List.mem_append_left _ h
    · rw [if_neg h1]
      by_cases h2 : j'.side = "LEFT"
      · rw [if_pos h2]
        exact List.mem_append_left _ (List.mem_append_left _ h)
      · rw [if_neg h2]
        by_cases h3 : j'.side = "FULL"
        · rw [if_pos h3]
          obtain ⟨k, hk, hcase⟩ := hx
          rcases hcase with h4 | ⟨h4, h5⟩
          · subst h4
            exact List.mem_append_left _ (List.mem_append_right _
              (List.mem_map_of_mem _ hk))
          · subst h5
            exact List.mem_append_right _
              (List.mem_map_of_mem _ (List.mem_filter.mpr ⟨hk, by simpa using h4⟩))
        · rw [if_neg h3]
          exact h

/-- A LEFT join reached by the fold puts its table name — and its alias,
when present — into the `optional` set, and they stay there. -/
theorem left_join_mem_goOpt (sel : SF.SelectSF) (j : SF.JoinSF) (hside : j.side = "LEFT")
    (hj : j ∈ sel.joins) :
    ∀ (rest : List SF.JoinSF), j ∈ rest → ∀ (opt seen : List (Option String)),
      some j.name ∈ SF.goOpt sel rest opt seen ∧
      (j.aliasName ≠ "" → some j.aliasName ∈ SF.goOpt sel rest opt seen) := by
  intro rest
  induction rest with
  | nil =>
    intro h
    exact absurd h (List.not_mem_nil _)
  | cons j' rest ih =>
    intro hmem opt seen
    rcases List.mem_cons.mp hmem with heq | hmem'
    · subst heq
      simp only [SF.goOpt]
      have hnr : ¬ j.side = "RIGHT" := by rw [hside]; decide
      rw [if_neg hnr, if_pos hside]
      constructor
      · apply goOpt_mono sel j.name ⟨j, hj, Or.inl rfl⟩
        exact List.mem_append_left _ (List.mem_append_right _ (by simp))
      · intro ha
        apply goOpt_mono sel j.aliasName ⟨j, hj, Or.inr ⟨ha, rfl⟩⟩
        apply List.mem_append_right
        rw [if_pos ha]
        simp
    · exact ih hmem' _ _

/-- A LEFT-joined table's name and alias are in the optional set computed
by `get_optional_tables_and_aliases`. -/
theorem left_join_optional (sel : SF.SelectSF) (j : SF.JoinSF)
    (hj : j ∈ sel.joins) (hside : j.side = "LEFT") :
    some j.name ∈ SF.get_optional_tables_and_aliases sel ∧
    (j.aliasName ≠ "" → some j.aliasName ∈ SF.get_optional_tables_and_aliases sel) :=
  left_join_mem_goOpt sel j hside hj sel.joins hj [] [none]

/-- Reading one column out of a successful `parse_create_view`: the
column's first table resolves, its type source resolves to a model column
whose annotation-stripped type — Optional-wrapped exactly under the
source's condition — appears at the same position of the output. -/
theorem parse_create_view_ok_get (view_name : String) (sel : SF.SelectSF)
    (models : List (String × SF.TableModelSF)) (vn : String)
    (defs : List (String × String)) (i : Nat) (col : SF.SelectExpr)
    (hok : SF.parse_create_view view_name sel models = .ok (vn, defs))
    (hcol : sel.expressions.get? i = some col) :
    ∃ t, SF.parse_first_table_name col = some t ∧
      ∃ tm ty, SF.alias_to_model sel models (SF.parse_select_col col).2.1.1 = some (some tm) ∧
        SF.dict_get tm (SF.parse_select_col col).2.1.2 = some ty ∧
        defs.get? i = some (SF.alias_or_name col,
          if some t ∈ SF.get_optional_tables_and_aliases sel
              ∧ ¬ (Str.isPre "typing.Optional" (SF.strip_annotations ty))
              ∧ (SF.parse_select_col col).2.2 = false then
            "typing.Optional[" ++ SF.strip_annotations ty ++ "]"
          else SF.strip_annotations ty) := by
  unfold SF.parse_create_view at hok
  cases h1 : SF.mapE SF.table_of_col sel.expressions with
  | error e => rw [h1] at hok; simp at hok
  | ok tables =>
    rw [h1] at hok
    dsimp only at hok
    by_cases h2 : tables.any (fun t => (SF.alias_to_model sel models t).isNone)
    · rw [if_pos h2] at hok; simp at hok
    · rw [if_neg h2] at hok
      cases h3 : SF.mapE (SF.render_col sel models (SF.get_optional_tables_and_aliases sel))
          (sel.expressions.zip tables) with
      | error e => rw [h3] at hok; simp at hok
      | ok defs0 =>
        rw [h3] at hok
        dsimp only at hok
        simp only [Except.ok.injEq, Prod.mk.injEq] at hok
        obtain ⟨hvn, hdefs⟩ := hok
        subst hdefs
        obtain ⟨t, hta, htb⟩ := mapE_ok_get h1 i col hcol
        have ht : SF.parse_first_table_name col = some t := by
          unfold SF.table_of_col at htb
          cases hpf : SF.parse_first_table_name col with
          | none => rw [hpf] at htb; simp at htb
          | some t0 =>
            rw [hpf] at htb
            simp only [Except.ok.injEq] at htb
            rw [htb]
        refine ⟨t, ht, ?_⟩
        have hz := get_zip_of sel.expressions tables i col t hcol hta
        obtain ⟨y, hy, hfy⟩ := mapE_ok_get h3 i (col, t) hz
        unfold SF.render_col at hfy
        dsimp only at hfy
        cases ha : SF.alias_to_model sel models (SF.parse_select_col col).2.1.1 with
        | none => rw [ha] at hfy; simp at hfy
        | some o =>
          cases o with
          | none => rw [ha] at hfy; simp at hfy
          | some tm =>
            rw [ha] at hfy
            dsimp only at hfy
            cases hd : SF.dict_get tm (SF.parse_select_col col).2.1.2 with
            | none => rw [hd] at hfy; simp at hfy
            | some ty =>
              rw [hd] at hfy
              dsimp only at hfy
              simp only [Except.ok.injEq] at hfy
              refine ⟨tm, ty, rfl, hd, ?_⟩
              rw [hy, hfy]

/-- C4 (amended): for a view output column whose COALESCE fallbacks
include a non-NULL literal (`parse_select_col` reports `not_nullable`),
the rendered field type is exactly the source column's annotation-stripped
declared type, with no `typing.Optional` wrapper added — in particular it
is non-nullable whenever that declared type is non-Optional, even when the
primary argument is sourced from an optional (join-nullable) table.
Fallback columns, even NOT NULL ones, do not count. -/
theorem coalesce_literal_fallback_keeps_type (view_name : String) (sel : SF.SelectSF)
    (models : List (String × SF.TableModelSF)) (i : Nat) (col : SF.SelectExpr)
    (vn : String) (defs : List (String × String))
    (hcol : sel.expressions.get? i = some col)
    (hnn : (SF.parse_select_col col).2.2 = true)
    (hok : SF.parse_create_view view_name sel models = .ok (vn, defs)) :
    ∃ tm ty, SF.alias_to_model sel models (SF.parse_select_col col).2.1.1 = some (some tm) ∧
      SF.dict_get tm (SF.parse_select_col col).2.1.2 = some ty ∧
      defs.get? i = some (SF.alias_or_name col, SF.strip_annotations ty) := by
  obtain ⟨t, ht, tm, ty, ha, hd, hdef⟩ := parse_create_view_ok_get _ _ _ _ _ _ _ hok hcol
  refine ⟨tm, ty, ha, hd, ?_⟩
  rw [hdef, if_neg]
  rintro ⟨-, -, hfalse⟩
  rw [hnn] at hfalse
  cases hfalse

/-- C4 (witness): `SELECT COALESCE(b.y, '0') AS y FROM P p LEFT JOIN B b`
renders `y` as plain `int` even though `b` is join-optional. -/
theorem coalesce_literal_fallback_keeps_type_check :
    ∃ tm ty,
      SF.alias_to_model litSel cModels
          (SF.parse_select_col (SF.SelectExpr.aliasE
            (SF.SelectExpr.coalesce (SF.SelectExpr.column "b" "y")
              (SF.SelectList.cons (SF.SelectExpr.literal "0") SF.SelectList.nil))
            "y")).2.1.1 = some (some tm) ∧
      SF.dict_get tm
          (SF.parse_select_col (SF.SelectExpr.aliasE
            (SF.SelectExpr.coalesce (SF.SelectExpr.column "b" "y")
              (SF.SelectList.cons (SF.SelectExpr.literal "0") SF.SelectList.nil))
            "y")).2.1.2 = some ty ∧
      [("y", "int")].get? 0 = some
        (SF.alias_or_name (SF.SelectExpr.aliasE
          (SF.SelectExpr.coalesce (SF.SelectExpr.column "b" "y")
            (SF.SelectList.cons (SF.SelectExpr.literal "0") SF.SelectList.nil))
          "y"), SF.strip_annotations ty) :=
  coalesce_literal_fallback_keeps_type "v" litSel cModels 0
    (SF.SelectExpr.aliasE
      (SF.SelectExpr.coalesce (SF.SelectExpr.column "b" "y")
        (SF.SelectList.cons (SF.SelectExpr.literal "0") SF.SelectList.nil)) "y")
    "v" [("y", "int")] rfl rfl rfl

/-- C3: in a parsed CREATE VIEW whose join chain LEFT-joins a table, any
output column whose (first) source table is that table or its alias is
rendered with a `typing.Optional` type, unless the column is a COALESCE
whose fallbacks guarantee a non-null result (`parse_select_col` reports
`not_nullable`, which only a COALESCE — possibly under an output alias —
can do for a column-bearing expression). -/
theorem left_join_column_optional (view_name : String) (sel : SF.SelectSF)
    (models : List (String × SF.TableModelSF)) (j : SF.JoinSF) (i : Nat)
    (col : SF.SelectExpr) (t vn : String) (defs : List (String × String))
    (hj : j ∈ sel.joins) (hside : j.side = "LEFT")
    (hcol : sel.expressions.get? i = some col)
    (ht : SF.parse_first_table_name col = some t)
    (hsrc : t = j.name ∨ (j.aliasName ≠ "" ∧ t = j.aliasName))
    (hok : SF.parse_create_view view_name sel models = .ok (vn, defs)) :
    (∃ nm ty, defs.get? i = some (nm, ty) ∧ Str.isPre "typing.Optional" ty = true) ∨
    (SF.isCoalesceUnderAlias col = true ∧ (SF.parse_select_col col).2.2 = true) := by
  obtain ⟨t', ht', tm, ty, ha, hd, hdef⟩ := parse_create_view_ok_get _ _ _ _ _ _ _ hok hcol
  have htt : t' = t := by
    rw [ht] at ht'
    exact (Option.some.inj ht').symm
  subst htt
  cases hnn : (SF.parse_select_col col).2.2 with
  | true =>
    right
    have hw : SF.walkColumns col ≠ [] := by
      intro hnil
      rw [SF.parse_first_table_name, hnil] at ht
      simp at ht
    exact ⟨notNullable_imp_coalesce col hnn hw, rfl⟩
  | false =>
    left
    have hopt : some t' ∈ SF.get_optional_tables_and_aliases sel := by
      rcases hsrc with h | ⟨h1, h2⟩
      · rw [h]; exact (left_join_optional sel j hj hside).1
      · rw [h2]; exact (left_join_optional sel j hj hside).2 h1
    by_cases hpre : Str.isPre "typing.Optional" (SF.strip_annotations ty) = true
    · refine ⟨SF.alias_or_name col, SF.strip_annotations ty, ?_, hpre⟩
      rw [hdef, if_neg]
      rintro ⟨-, hno, -⟩
      exact hno hpre
    · refine ⟨SF.alias_or_name col,
        "typing.Optional[" ++ SF.strip_annotations ty ++ "]", ?_, isPre_optional_wrap _⟩
      rw [hdef, if_pos]
      exact ⟨hopt, by simpa using hpre, hnn⟩

/-- C3 (witness): the repository-test view `master` — `SELECT b.name AS
company_name FROM Portfolio p LEFT JOIN Benchmark b` — renders
`company_name` as `typing.Optional[str]`. -/
theorem left_join_column_optional_check :
    (∃ nm ty, [("company_name", "typing.Optional[str]")].get? 0 = some (nm, ty) ∧
      Str.isPre "typing.Optional" ty = true) ∨
    (SF.isCoalesceUnderAlias
        (SF.SelectExpr.aliasE (SF.SelectExpr.column "b" "name") "company_name") = true ∧
      (SF.parse_select_col
        (SF.SelectExpr.aliasE (SF.SelectExpr.column "b" "name") "company_name")).2.2 = true) :=
  left_join_column_optional "master" wSel wModels ⟨"LEFT", "Benchmark", "b"⟩ 0
    (SF.SelectExpr.aliasE (SF.SelectExpr.column "b" "name") "company_name") "b" "master"
    [("company_name", "typing.Optional[str]")] (by decide) rfl rfl rfl
    (Or.inr ⟨by decide, rfl⟩) rfl

/-- C5 (amended): a parsed CREATE TABLE column is marked nullable
(`typing.Optional`) exactly when it carries an explicit `NULL` marker — a
`NotNullColumnConstraint` with `allow_null=True`; a column with `NOT
NULL`, or with no nullability constraint at all, is rendered
non-nullable. -/
theorem nullable_iff_explicit_null (cd : SF.ColumnDefSql) (pk : Option (Finset String))
    (n t : String) (h : SF.transform_column_def cd pk = .ok (n, t)) :
    ((cd.constraints.any fun c =>
        match c with
        | SF.CConstraint.notNull b => b
        | _ => false) = true
      ↔ Str.isPre "typing.Optional" (SF.strip_annotations t) = true) := by
  obtain ⟨nm, kind, cons⟩ := cd
  cases hb1 : cons.any (fun c =>
      match c with
      | SF.CConstraint.notNull b => b
      | _ => false) <;>
  cases hb2 : ((cons.any fun c =>
      match c with
      | SF.CConstraint.primaryKey => true
      | _ => false) || decide (nm ∈ pk.getD ∅)) <;>
  cases kind <;>
  simp only [SF.transform_column_def, SF.sqlglot_type_to_pydantic, hb1, hb2] at h <;>
  simp at h <;>
  (obtain ⟨hn, ht⟩ := h
   subst ht
   decide)

/-- C5 (witness): `cluster NVARCHAR(50) NULL` carries an explicit NULL
marker and is rendered `typing.Optional[str]`. -/
theorem nullable_iff_explicit_null_check :
    (([SF.CConstraint.notNull true].any fun c =>
        match c with
        | SF.CConstraint.notNull b => b
        | _ => false) = true
      ↔ Str.isPre "typing.Optional" (SF.strip_annotations "typing.Optional[str]") = true) :=
  nullable_iff_explicit_null ⟨"cluster", .nvarchar, [.notNull true]⟩ (some ∅)
    "cluster" "typing.Optional[str]" rfl

/-- Lookup in a tabulated association list. -/
theorem dget_tabulate {α : Type} (g : String → α) (c : String) :
    ∀ (fields : List String),
      RW.dget (fields.map (fun f => (f, g f))) c = if c ∈ fields then some (g c) else none := by
  intro fields
  induction fields with
  | nil => simp [RW.dget]
  | cons f fs ih =>
    rw [List.map_cons]
    by_cases h : f = c
    · subst h
      rw [RW.dget, List.find?_cons_of_pos _ (by simp)]
      simp
    · rw [RW.dget, List.find?_cons_of_neg _ (by simp [h])]
      rw [show ((List.find? (fun p => p.1 = c) (fs.map fun f => (f, g f))).map (·.2))
          = RW.dget (fs.map fun f => (f, g f)) c from rfl, ih]
      simp only [List.mem_cons]
      by_cases hm : c ∈ fs
      · rw [if_pos hm, if_pos (Or.inr hm)]
      · rw [if_neg hm, if_neg ?_]
        rintro (hc | hc)
        · exact h hc.symm
        · exact hm hc

/-- Writing a model's values over the `fields` columns preserves its
comparison-key tuple, provided the key columns are among `fields` and
present on the model. -/
theorem get_id_row_of_model {α : Type} [DecidableEq α] [Inhabited α] (m : RW.Row α)
    (co fields : List String)
    (hco : ∀ c ∈ co, (RW.dget m c).isSome ∧ c ∈ fields) :
    RW.get_id co (RW.row_of_model fields m) = RW.get_id co m := by
  unfold RW.get_id
  apply List.map_congr_left
  intro c hc
  obtain ⟨hsome, hmem⟩ := hco c hc
  unfold RW.row_of_model
  rw [dget_tabulate (fun f => RW.dgetD m f) c fields, if_pos hmem]
  unfold RW.dgetD
  cases hg : RW.dget m c with
  | none => rw [hg] at hsome; simp at hsome
  | some v => simp

/-- Key tuples of a concatenated table. -/
theorem in_db_keys_append {α : Type} [DecidableEq α] (db l : List (RW.Row α))
    (co : List String) :
    RW.in_db_keys (db ++ l) co = RW.in_db_keys db co ∪ RW.in_db_keys l co := by
  unfold RW.in_db_keys
  rw [List.map_append, List.toFinset_append]

/-- An empty DELETE batch leaves the table unchanged. -/
theorem delete_step_nil {α : Type} [DecidableEq α] (db : List (RW.Row α))
    (co : List String) :
    RW.delete_step db co [] = db := by
  simp [RW.delete_step]

/-- `delete_data` is always empty when its target set is the computed
`to_delete`: it filters the in-memory models by membership in
`to_delete`, but every in-memory key is in `in_memory`, which `to_delete`
excludes by construction. -/
theorem delete_data_nil {α : Type} [DecidableEq α] (models : List (RW.Row α))
    (co : List String) (D : Finset (List (Option α))) :
    RW.delete_data models co (RW.to_delete (RW.in_memory_keys models co) D) = [] := by
  unfold RW.delete_data
  rw [List.map_eq_nil_iff, List.filter_eq_nil_iff]
  intro m hm
  simp only [RW.to_delete, Finset.mem_sdiff, decide_eq_true_eq, not_and, Decidable.not_not]
  intro _
  unfold RW.in_memory_keys
  rw [List.mem_toFinset]
  exact List.mem_map_of_mem _ hm

/-- Key tuples after the INSERT batch: the prior keys plus the keys of the
models selected for insertion. -/
theorem in_db_keys_insert_step {α : Type} [DecidableEq α] [Inhabited α]
    (db models : List (RW.Row α)) (co : List String) (S : Finset (List (Option α)))
    (hco : ∀ m ∈ models, ∀ c ∈ co, (RW.dget m c).isSome ∧ c ∈ RW.fieldsOf models) :
    RW.in_db_keys (RW.insert_step db models co (RW.fieldsOf models) S) co
      = RW.in_db_keys db co ∪ (RW.in_memory_keys models co ∩ S) := by
  unfold RW.insert_step
  rw [in_db_keys_append]
  congr 1
  unfold RW.in_db_keys RW.in_memory_keys
  rw [List.map_map]
  ext x
  simp only [List.mem_toFinset, List.mem_map, Function.comp_apply, Finset.mem_inter,
    List.mem_toFinset, List.mem_map, List.mem_filter, decide_eq_true_eq]
  constructor
  · rintro ⟨m, ⟨hmm, hS⟩, hx⟩
    rw [get_id_row_of_model m co _ (hco m hmm)] at hx
    subst hx
    exact ⟨⟨m, hmm, rfl⟩, hS⟩
  · rintro ⟨⟨m, hmm, hx⟩, hS⟩
    subst hx
    refine ⟨m, ⟨hmm, hS⟩, ?_⟩
    exact get_id_row_of_model m co _ (hco m hmm)

/-- Key tuples are untouched by the UPDATE batch: every row either keeps
its key (no match) or is overwritten by a model with the same key. -/
theorem in_db_keys_update_step {α : Type} [DecidableEq α] [Inhabited α]
    (db models : List (RW.Row α)) (co fields : List String)
    (S : Finset (List (Option α)))
    (hco : ∀ m ∈ models, ∀ c ∈ co, (RW.dget m c).isSome ∧ c ∈ fields) :
    RW.in_db_keys (RW.update_step db models co fields S) co = RW.in_db_keys db co := by
  unfold RW.update_step
  have key : ∀ (ms : List (RW.Row α)), (∀ m ∈ ms, m ∈ models) → ∀ (d : List (RW.Row α)),
      RW.in_db_keys (ms.foldl (fun d m => d.map (fun r =>
        if RW.get_id co r = RW.get_id co m then RW.row_of_model fields m else r)) d) co
        = RW.in_db_keys d co := by
    intro ms
    induction ms with
    | nil => intro _ d; rfl
    | cons m ms ih =>
      intro hsub d
      rw [List.foldl_cons, ih (fun x hx => hsub x (List.mem_cons_of_mem _ hx))]
      unfold RW.in_db_keys
      rw [List.map_map]
      congr 1
      apply List.map_congr_left
      intro r _
      simp only [Function.comp_apply]
      by_cases hmatch : RW.get_id co r = RW.get_id co m
      · rw [if_pos hmatch,
          get_id_row_of_model m co fields (hco m (hsub m (List.mem_cons_self _ _))), hmatch]
      · rw [if_neg hmatch]
  exact key _ (fun m hm => List.mem_of_mem_filter hm) db

/-- After a sync write with inserts enabled and deletes disabled (or
enabled — the DELETE batch is provably empty), the table's key set is the
old key set united with the in-memory key set. -/
theorem write_dict_models_keys {α : Type} [DecidableEq α] [Inhabited α]
    (db models : List (RW.Row α)) (co : List String)
    (hco : ∀ m ∈ models, ∀ c ∈ co, (RW.dget m c).isSome)
    (su sd : Bool) :
    RW.in_db_keys (RW.write_dict_models db models co true su sd) co
      = RW.in_db_keys db co ∪ RW.in_memory_keys models co := by
  have hco' : ∀ m ∈ models, ∀ c ∈ co, (RW.dget m c).isSome ∧ c ∈ RW.fieldsOf models := by
    intro m hm c hc
    refine ⟨hco m hm c hc, ?_⟩
    cases models with
    | nil => exact absurd hm (List.not_mem_nil _)
    | cons m0 rest =>
      have h0 := hco m0 (List.mem_cons_self _ _) c hc
      unfold RW.fieldsOf
      unfold RW.dget at h0
      cases hf : m0.find? (fun p => p.1 = c) with
      | none => rw [hf] at h0; simp at h0
      | some p =>
        have hpm := List.mem_of_find?_eq_some hf
        have hpc : p.1 = c := by
          have := List.find?_some hf
          simpa using this
        simp only [List.headD_cons]
        exact hpc ▸ List.mem_map_of_mem _ hpm
  unfold RW.write_dict_models
  dsimp only
  rw [delete_data_nil models co (RW.in_db_keys db co), delete_step_nil, ite_self]
  by_cases hU : (RW.to_update (RW.in_memory_keys models co) (RW.in_db_keys db co) ≠ ∅
      ∧ su = true)
  · rw [if_pos hU, in_db_keys_update_step _ models co _ _ hco']
    by_cases hI : RW.to_insert (RW.in_memory_keys models co) (RW.in_db_keys db co) ≠ ∅
    · rw [if_pos ⟨hI, rfl⟩, in_db_keys_insert_step db models co _ hco']
      ext x
      simp only [RW.to_insert, Finset.mem_union, Finset.mem_inter, Finset.mem_sdiff]
      tauto
    · rw [if_neg (fun h => hI h.1)]
      have h0 : RW.to_insert (RW.in_memory_keys models co) (RW.in_db_keys db co) = ∅ :=
        not_not.mp hI
      rw [RW.to_insert] at h0
      exact (Finset.union_eq_left.mpr (Finset.sdiff_eq_empty_iff_subset.mp h0)).symm
  · rw [if_neg hU]
    by_cases hI : RW.to_insert (RW.in_memory_keys models co) (RW.in_db_keys db co) ≠ ∅
    · rw [if_pos ⟨hI, rfl⟩, in_db_keys_insert_step db models co _ hco']
      ext x
      simp only [RW.to_insert, Finset.mem_union, Finset.mem_inter, Finset.mem_sdiff]
      tauto
    · rw [if_neg (fun h => hI h.1)]
      have h0 : RW.to_insert (RW.in_memory_keys models co) (RW.in_db_keys db co) = ∅ :=
        not_not.mp hI
      rw [RW.to_insert] at h0
      exact (Finset.union_eq_left.mpr (Finset.sdiff_eq_empty_iff_subset.mp h0)).symm

/-- C7: writing a collection whose comparison keys already cover every
row of the table (in particular, re-running an unchanged write) makes the
second call's `toInsert` and `toDelete` empty. -/
theorem second_write_no_inserts_or_deletes {α : Type} [DecidableEq α] [Inhabited α]
    (db models : List (RW.Row α)) (co : List String)
    (hco : ∀ m ∈ models, ∀ c ∈ co, (RW.dget m c).isSome)
    (hdb : RW.in_db_keys db co ⊆ RW.in_memory_keys models co) :
    RW.to_insert (RW.in_memory_keys models co)
        (RW.in_db_keys (RW.write_dict_models db models co true true false) co) = ∅ ∧
    RW.to_delete (RW.in_memory_keys models co)
        (RW.in_db_keys (RW.write_dict_models db models co true true false) co) = ∅ := by
  rw [write_dict_models_keys db models co hco true false]
  constructor
  · rw [RW.to_insert, Finset.sdiff_eq_empty_iff_subset]
    exact Finset.subset_union_right
  · rw [RW.to_delete, Finset.sdiff_eq_empty_iff_subset]
    exact Finset.union_subset hdb (Finset.Subset.refl _)

/-- C7 (witness): two models written into an empty table; the sets a
second identical call would compute are empty. -/
theorem second_write_no_inserts_or_deletes_check :
    RW.to_insert
        (RW.in_memory_keys [[("id", (0 : Int)), ("name", 1)], [("id", 1), ("name", 2)]] ["id"])
        (RW.in_db_keys (RW.write_dict_models []
          [[("id", (0 : Int)), ("name", 1)], [("id", 1), ("name", 2)]] ["id"] true true false)
          ["id"]) = ∅ ∧
    RW.to_delete
        (RW.in_memory_keys [[("id", (0 : Int)), ("name", 1)], [("id", 1), ("name", 2)]] ["id"])
        (RW.in_db_keys (RW.write_dict_models []
          [[("id", (0 : Int)), ("name", 1)], [("id", 1), ("name", 2)]] ["id"] true true false)
          ["id"]) = ∅ :=
  second_write_no_inserts_or_deletes []
    [[("id", (0 : Int)), ("name", 1)], [("id", 1), ("name", 2)]] ["id"]
    (by decide) (by decide)
